import Mathlib

/-!
Shallow embedding of `grll/cache-manager` (src/cache_manager/cache_manager.py).

The repository is a disk-backed memoization cache.  The embedding models:

* the SHA-256 hex digest used by `CacheManager.str_to_hash` (a full
  executable SHA-256 over byte lists, bytes as `Nat` reduced mod 256 /
  words mod 2^32);
* the filesystem as an association list from path strings to byte
  payloads, together with the set of existing directories;
* pickle as an abstract serialization collaborator: an `encode` to bytes
  and a `decode` from bytes that detects malformed payloads, with the
  round-trip contract the spec requires of it;
* the `CacheManager` operations `has_in_cache`, `retrieve_from_cache`,
  `put_in_cache`, `clear_from_cache`, `cachify` and `memoize`, with the
  computation passed to `cachify` modelled as an explicit state
  transformer (so that "invoked exactly once" is expressible) that may
  also fail (so that error propagation is expressible).
-/

/- ## SHA-256 over byte lists -/

/-- Reduce a natural number to a 32-bit word. -/
def w32 (n : Nat) : Nat := n % 4294967296

/-- Right rotation of a 32-bit word. -/
def rotr (n x : Nat) : Nat := w32 ((x >>> n) ||| (x <<< (32 - n)))

/-- Bitwise complement of a 32-bit word. -/
def bnot32 (x : Nat) : Nat := x ^^^ 4294967295

/-- SHA-256 small sigma 0. -/
def ssig0 (x : Nat) : Nat := rotr 7 x ^^^ rotr 18 x ^^^ (x >>> 3)

/-- SHA-256 small sigma 1. -/
def ssig1 (x : Nat) : Nat := rotr 17 x ^^^ rotr 19 x ^^^ (x >>> 10)

/-- SHA-256 big sigma 0. -/
def bsig0 (x : Nat) : Nat := rotr 2 x ^^^ rotr 13 x ^^^ rotr 22 x

/-- SHA-256 big sigma 1. -/
def bsig1 (x : Nat) : Nat := rotr 6 x ^^^ rotr 11 x ^^^ rotr 25 x

/-- SHA-256 choice function. -/
def ch (e f g : Nat) : Nat := (e &&& f) ^^^ (bnot32 e &&& g)

/-- SHA-256 majority function. -/
def maj (a b c : Nat) : Nat := (a &&& b) ^^^ (a &&& c) ^^^ (b &&& c)

/-- The 64 SHA-256 round constants, in decimal. -/
def shaK : List Nat :=
  [1116352408, 1899447441, 3049323471, 3921009573,
   961987163, 1508970993, 2453635748, 2870763221,
   3624381080, 310598401, 607225278, 1426881987,
   1925078388, 2162078206, 2614888103, 3248222580,
   3835390401, 4022224774, 264347078, 604807628,
   770255983, 1249150122, 1555081692, 1996064986,
   2554220882, 2821834349, 2952996808, 3210313671,
   3336571891, 3584528711, 113926993, 338241895,
   666307205, 773529912, 1294757372, 1396182291,
   1695183700, 1986661051, 2177026350, 2456956037,
   2730485921, 2820302411, 3259730800, 3345764771,
   3516065817, 3600352804, 4094571909, 275423344,
   430227734, 506948616, 659060556, 883997877,
   958139571, 1322822218, 1537002063, 1747873779,
   1955562222, 2024104815, 2227730452, 2361852424,
   2428436474, 2756734187, 3204031479, 3329325298]

/-- Working state of the SHA-256 compression function. -/
structure Sha256State where
  a : Nat
  b : Nat
  c : Nat
  d : Nat
  e : Nat
  f : Nat
  g : Nat
  h : Nat
deriving Repr, DecidableEq

/-- The SHA-256 initial hash state, in decimal. -/
def shaInit : Sha256State :=
  ⟨1779033703, 3144134277, 1013904242, 2773480762,
   1359893119, 2600822924, 528734635, 1541459225⟩

/-- The eight bytes of the big-endian 64-bit encoding of the bit length. -/
def lenBytes (len : Nat) : List Nat :=
  [((len * 8) >>> 56) % 256, ((len * 8) >>> 48) % 256, ((len * 8) >>> 40) % 256,
   ((len * 8) >>> 32) % 256, ((len * 8) >>> 24) % 256, ((len * 8) >>> 16) % 256,
   ((len * 8) >>> 8) % 256, (len * 8) % 256]

/-- SHA-256 padding: append 0x80, zero bytes to 56 mod 64, then the bit length. -/
def padMessage (msg : List Nat) : List Nat :=
  msg ++ 128 :: List.replicate ((119 - msg.length % 64) % 64) 0 ++ lenBytes msg.length

/-- Combine bytes four at a time into big-endian 32-bit words. -/
def bytesToWords : List Nat → List Nat
  | a :: b :: c :: d :: rest => (a * 16777216 + b * 65536 + c * 256 + d) :: bytesToWords rest
  | _ => []

/-- Split a word list into blocks of sixteen words; the fuel argument makes the
recursion structural so that the kernel can evaluate it. -/
def chunk16 : Nat → List Nat → List (List Nat)
  | 0, _ => []
  | _, [] => []
  | fuel + 1, l => l.take 16 :: chunk16 fuel (l.drop 16)

/-- One extension step of the message schedule, on the reversed schedule. -/
def schedStep (r : List Nat) : List Nat :=
  w32 (r.getD 15 0 + ssig0 (r.getD 14 0) + r.getD 6 0 + ssig1 (r.getD 1 0)) :: r

/-- Iterate the schedule extension. -/
def schedExtend : Nat → List Nat → List Nat
  | 0, r => r
  | n + 1, r => schedExtend n (schedStep r)

/-- The 64-word message schedule of a 16-word block. -/
def schedule (block : List Nat) : List Nat :=
  (schedExtend 48 block.reverse).reverse

/-- One round of the SHA-256 compression function. -/
def shaRound (st : Sha256State) (kw : Nat × Nat) : Sha256State :=
  ⟨w32 (w32 (st.h + bsig1 st.e + ch st.e st.f st.g + kw.1 + kw.2) + w32 (bsig0 st.a + maj st.a st.b st.c)),
   st.a, st.b, st.c,
   w32 (st.d + w32 (st.h + bsig1 st.e + ch st.e st.f st.g + kw.1 + kw.2)),
   st.e, st.f, st.g⟩

/-- Add the compressed state back into the running state, word by word. -/
def addState (hs st : Sha256State) : Sha256State :=
  ⟨w32 (hs.a + st.a), w32 (hs.b + st.b), w32 (hs.c + st.c), w32 (hs.d + st.d),
   w32 (hs.e + st.e), w32 (hs.f + st.f), w32 (hs.g + st.g), w32 (hs.h + st.h)⟩

/-- The SHA-256 state after hashing a byte message. -/
def sha256state (msg : List Nat) : Sha256State :=
  (chunk16 (padMessage msg).length (bytesToWords (padMessage msg))).foldl
    (fun hs block => addState hs ((shaK.zip (schedule block)).foldl shaRound hs)) shaInit

/-- Lower-case hexadecimal digit for a value below sixteen. -/
def hexChar (n : Nat) : Char :=
  if n < 10 then Char.ofNat (48 + n) else Char.ofNat (87 + n)

/-- The eight lower-case hex characters of a 32-bit word, most significant first. -/
def wordHex (x : Nat) : List Char :=
  [hexChar (x / 268435456 % 16), hexChar (x / 16777216 % 16),
   hexChar (x / 1048576 % 16), hexChar (x / 65536 % 16),
   hexChar (x / 4096 % 16), hexChar (x / 256 % 16),
   hexChar (x / 16 % 16), hexChar (x % 16)]

/-- UTF-8 encoding of one character, as a list of bytes. -/
def charUtf8 (c : Char) : List Nat :=
  if c.toNat < 128 then [c.toNat]
  else if c.toNat < 2048 then
    [192 ||| (c.toNat >>> 6), 128 ||| (c.toNat &&& 63)]
  else if c.toNat < 65536 then
    [224 ||| (c.toNat >>> 12), 128 ||| ((c.toNat >>> 6) &&& 63), 128 ||| (c.toNat &&& 63)]
  else
    [240 ||| (c.toNat >>> 18), 128 ||| ((c.toNat >>> 12) &&& 63),
     128 ||| ((c.toNat >>> 6) &&& 63), 128 ||| (c.toNat &&& 63)]

/-- UTF-8 encoding of a string, as a list of bytes (the `.encode("utf8")` step). -/
def utf8Bytes (s : String) : List Nat :=
  (s.data.map charUtf8).flatten

/- ## Key hashing and path mapping (from src/cache_manager/cache_manager.py) -/

/-- Embeds `CacheManager.str_to_hash`: the lower-case hex SHA-256 digest of the
UTF-8 encoding of the input string. -/
def str_to_hash (s : String) : String :=
  ⟨wordHex (sha256state (utf8Bytes s)).a ++ wordHex (sha256state (utf8Bytes s)).b ++
   wordHex (sha256state (utf8Bytes s)).c ++ wordHex (sha256state (utf8Bytes s)).d ++
   wordHex (sha256state (utf8Bytes s)).e ++ wordHex (sha256state (utf8Bytes s)).f ++
   wordHex (sha256state (utf8Bytes s)).g ++ wordHex (sha256state (utf8Bytes s)).h⟩

/-- Embeds `CacheManager.str_to_filename`: digest plus the fixed `.pickle` suffix. -/
def str_to_filename (s : String) : String :=
  str_to_hash s ++ ".pickle"

/-- Embeds `os.path.join` for a directory and a plain file name. -/
def joinPath (dir file : String) : String :=
  dir ++ "/" ++ file

/- ## Filesystem model -/

/-- On-disk byte payloads. -/
abbrev Bytes := List Nat

/-- The filesystem: the set of existing directories (for the `isdir` check in
the constructor) and the existing files, an association from full path to
payload bytes.  File names are unique, which `setFile` and `delFile` preserve. -/
structure World where
  dirs : List String
  files : List (String × Bytes)
deriving Repr, DecidableEq

/-- Look up the payload at a path (`open(path, "rb")`, success iff the file exists). -/
def getFile : List (String × Bytes) → String → Option Bytes
  | [], _ => none
  | (q, b) :: rest, p => if q = p then some b else getFile rest p

/-- Write a payload at a path, creating the file or overwriting it in place
(`open(path, "wb")` followed by a full write). -/
def setFile : List (String × Bytes) → String → Bytes → List (String × Bytes)
  | [], p, b => [(p, b)]
  | (q, c) :: rest, p, b => if q = p then (p, b) :: rest else (q, c) :: setFile rest p b

/-- Delete the file at a path (the effect of `os.remove` when the file exists). -/
def delFile : List (String × Bytes) → String → List (String × Bytes)
  | [], _ => []
  | (q, c) :: rest, p => if q = p then delFile rest p else (q, c) :: delFile rest p

/- ## Serialization collaborator (pickle) -/

/-- The serialization collaborator (`pickle` in the source): an encoder to
bytes and a decoder that signals malformed payloads by returning `none`,
subject to the round-trip contract the component requires of it. -/
structure Serializer (α : Type) where
  encode : α → Bytes
  decode : Bytes → Option α
  round_trip : ∀ v, decode (encode v) = some v

/- ## Errors -/

/-- The error taxonomy for the primitive cache operations: `notFound` for a
missing file (`FileNotFoundError`), `corruption` for bytes the serializer
cannot decode (`pickle.UnpicklingError`). -/
inductive CacheError where
  | notFound
  | corruption
deriving Repr, DecidableEq

/- ## CacheManager -/

/-- Embeds the `CacheManager` object: one attribute, the validated cache
directory path. -/
structure CacheManager where
  cache_folder_path : String
deriving Repr, DecidableEq

/-- Embeds `CacheManager.__init__`: the `assert isdir(cache_folder_path)`
check; on failure the caller obtains no manager. -/
def CacheManager.construct (w : World) (path : String) : Option CacheManager :=
  if w.dirs.contains path then some ⟨path⟩ else none

/-- The full path of the cache file for a key:
`join(self.cache_folder_path, self.str_to_filename(key))`. -/
def CacheManager.cachePath (cm : CacheManager) (key : String) : String :=
  joinPath cm.cache_folder_path (str_to_filename key)

/-- Embeds `CacheManager.has_in_cache`: `isfile` on the cache path. -/
def CacheManager.has_in_cache (cm : CacheManager) (w : World) (key : String) : Bool :=
  (getFile w.files (cm.cachePath key)).isSome

/-- Embeds `CacheManager.retrieve_from_cache`: open the cache file and
unpickle it.  A missing file raises `notFound`; undecodable bytes raise
`corruption`. -/
def CacheManager.retrieve_from_cache {α : Type} (cm : CacheManager) (S : Serializer α)
    (w : World) (key : String) : Except CacheError α :=
  match getFile w.files (cm.cachePath key) with
  | none => .error .notFound
  | some bs =>
    match S.decode bs with
    | none => .error .corruption
    | some v => .ok v

/-- Embeds `CacheManager.put_in_cache`: pickle the value and write it to the
cache path, creating or overwriting the file. -/
def CacheManager.put_in_cache {α : Type} (cm : CacheManager) (S : Serializer α)
    (w : World) (key : String) (v : α) : World :=
  { w with files := setFile w.files (cm.cachePath key) (S.encode v) }

/-- Embeds `CacheManager.clear_from_cache`: `os.remove` on the cache path,
which raises `notFound` when no file exists there. -/
def CacheManager.clear_from_cache (cm : CacheManager) (w : World) (key : String) :
    Except CacheError World :=
  match getFile w.files (cm.cachePath key) with
  | none => .error .notFound
  | some _ => .ok { w with files := delFile w.files (cm.cachePath key) }

/-- Embeds `CacheManager.cachify`.  The computation `func` is an explicit
state transformer `σ → σ × Except ε α`, so that the number of invocations is
visible in the final `σ` and a raising computation is expressible; the
returned triple is (result, filesystem after the call, computation state
after the call).  On a hit the stored value is retrieved without running
`func`; on a miss `func` runs once and an `ok` result is stored. -/
def CacheManager.cachify {α σ ε : Type} (cm : CacheManager) (S : Serializer α)
    (key : String) (func : σ → σ × Except ε α) (w : World) (s : σ) :
    Except (CacheError ⊕ ε) α × World × σ :=
  if cm.has_in_cache w key then
    match cm.retrieve_from_cache S w key with
    | .error e => (.error (.inl e), w, s)
    | .ok v => (.ok v, w, s)
  else
    match func s with
    | (s2, .error e) => (.error (.inr e), w, s2)
    | (s2, .ok v) => (.ok v, cm.put_in_cache S w key v, s2)

/-- Embeds `CacheManager.memoize`: the wrapper produced by the decorator for
a fixed key forwards its own arguments to `cachify(key, func, *args)`. -/
def CacheManager.memoize {α β σ ε : Type} (cm : CacheManager) (S : Serializer α)
    (key : String) (func : β → σ → σ × Except ε α) :
    β → World → σ → Except (CacheError ⊕ ε) α × World × σ :=
  fun args w s => cm.cachify S key (func args) w s

/- ## Concrete instances used by the witnesses -/

/-- A concrete serializer for naturals: a value is stored as a one-byte list,
every other payload is rejected as malformed. -/
def natSerializer : Serializer Nat :=
  ⟨fun n => [n],
   fun bs => match bs with
     | [n] => some n
     | _ => none,
   fun _ => rfl⟩

/-- A concrete manager over the directory `cache`. -/
def wcm : CacheManager := ⟨"cache"⟩

/-- A world with the directory `cache` present and no files. -/
def wEmpty : World := ⟨["cache"], []⟩

/-- A counting computation: bumps the counter and returns a fixed value. -/
def countFunc : Nat → Nat × Except Unit Nat :=
  fun n => (n + 1, Except.ok 42)

/-- A counting wrapped function of one argument: bumps the counter and returns
its own argument, so that distinct calls would compute distinct values. -/
def argFunc : Nat → Nat → Nat × Except Unit Nat :=
  fun args n => (n + 1, Except.ok args)

/-- A counting computation that always raises. -/
def failFunc : Nat → Nat × Except Unit Nat :=
  fun n => (n + 1, Except.error ())

/-- A world whose only file sits at the cache path of `k` but holds a
payload the serializer rejects. -/
def wCorrupt : World := ⟨["cache"], [(wcm.cachePath "k", [7, 7])]⟩

/-- The sixteen lower-case hexadecimal digits. -/
def hexAlphabet : List Char :=
  "0123456789abcdef".data

/- ## Helper lemmas -/

theorem getFile_setFile_self (fs : List (String × Bytes)) (p : String) (b : Bytes) :
    getFile (setFile fs p b) p = some b := by
  induction fs with
  | nil => simp [setFile, getFile]
  | cons hd tl ih =>
    obtain ⟨q0, c⟩ := hd
    by_cases h : q0 = p
    · subst h
      simp [setFile, getFile]
    · simp [setFile, getFile, h, ih]

theorem getFile_setFile_other (fs : List (String × Bytes)) (p q : String) (b : Bytes)
    (h : q ≠ p) : getFile (setFile fs p b) q = getFile fs q := by
  induction fs with
  | nil => simp [setFile, getFile, Ne.symm h]
  | cons hd tl ih =>
    obtain ⟨q0, c⟩ := hd
    by_cases hh : q0 = p
    · subst hh
      simp [setFile, getFile, Ne.symm h]
    · simp [setFile, getFile, hh, ih]

theorem getFile_delFile_self (fs : List (String × Bytes)) (p : String) :
    getFile (delFile fs p) p = none := by
  induction fs with
  | nil => simp [delFile, getFile]
  | cons hd tl ih =>
    obtain ⟨q0, c⟩ := hd
    by_cases h : q0 = p
    · subst h
      simp [delFile, getFile, ih]
    · simp [delFile, getFile, h, ih]

theorem getFile_delFile_other (fs : List (String × Bytes)) (p q : String)
    (h : q ≠ p) : getFile (delFile fs p) q = getFile fs q := by
  induction fs with
  | nil => simp [delFile, getFile]
  | cons hd tl ih =>
    obtain ⟨q0, c⟩ := hd
    by_cases hh : q0 = p
    · subst hh
      simp [delFile, getFile, Ne.symm h, ih]
    · simp [delFile, getFile, hh, ih]

theorem cachePath_inj (cm : CacheManager) (k1 k2 : String)
    (h : str_to_hash k1 ≠ str_to_hash k2) : cm.cachePath k1 ≠ cm.cachePath k2 := by
  intro hc
  apply h
  have hd := congrArg String.data hc
  simp [CacheManager.cachePath, joinPath, str_to_filename, String.data_append] at hd
  exact String.ext hd

theorem has_in_cache_put_self {α : Type} (cm : CacheManager) (S : Serializer α)
    (w : World) (k : String) (v : α) :
    cm.has_in_cache (cm.put_in_cache S w k v) k = true := by
  simp [CacheManager.has_in_cache, CacheManager.put_in_cache, getFile_setFile_self]

theorem retrieve_put_self {α : Type} (cm : CacheManager) (S : Serializer α)
    (w : World) (k : String) (v : α) :
    cm.retrieve_from_cache S (cm.put_in_cache S w k v) k = .ok v := by
  simp [CacheManager.retrieve_from_cache, CacheManager.put_in_cache,
    getFile_setFile_self, S.round_trip]

/- ## Claim theorems -/

/-- C1: when an entry for the key exists, `cachify` returns the loaded value
without invoking the computation (filesystem and computation state are
untouched); otherwise it invokes the computation exactly once (the final
computation state is one application of `func`), stores the result under the
key, and returns it; consequently two sequential calls with the same key
invoke the computation exactly once in total and the second call returns the
first call's result. -/
theorem cachify_get_or_compute {α σ ε : Type} (cm : CacheManager) (S : Serializer α)
    (key : String) (func : σ → σ × Except ε α) (w : World) (s : σ) :
    (∀ v, cm.has_in_cache w key = true → cm.retrieve_from_cache S w key = Except.ok v →
      cm.cachify S key func w s = (Except.ok v, w, s)) ∧
    (∀ s1 v, cm.has_in_cache w key = false → func s = (s1, Except.ok v) →
      cm.cachify S key func w s = (Except.ok v, cm.put_in_cache S w key v, s1) ∧
      cm.has_in_cache (cm.put_in_cache S w key v) key = true ∧
      cm.cachify S key func (cm.put_in_cache S w key v) s1 =
        (Except.ok v, cm.put_in_cache S w key v, s1)) := by
  constructor
  · intro v h hr
    simp [CacheManager.cachify, h, hr]
  · intro s1 v h hf
    refine ⟨?_, has_in_cache_put_self cm S w key v, ?_⟩
    · simp [CacheManager.cachify, h, hf]
    · simp [CacheManager.cachify, has_in_cache_put_self, retrieve_put_self]

/-- C1 witness: with a counting computation over an empty cache, the first
call computes and stores, the second call returns the same value and leaves
the counter at one. -/
theorem cachify_get_or_compute_witness :
    wcm.cachify natSerializer "k" countFunc wEmpty 0 =
      (Except.ok 42, wcm.put_in_cache natSerializer wEmpty "k" 42, 1) ∧
    wcm.cachify natSerializer "k" countFunc (wcm.put_in_cache natSerializer wEmpty "k" 42) 1 =
      (Except.ok 42, wcm.put_in_cache natSerializer wEmpty "k" 42, 1) := by
  have h := (cachify_get_or_compute wcm natSerializer "k" countFunc wEmpty 0).2 1 42 rfl rfl
  exact ⟨h.1, h.2.2⟩

/-- C2: a callable wrapped by `memoize` under a fixed key determines cache
identity by the key alone: called first with argument `a` and then with a
different argument `b`, both calls return the first call's result and the
wrapped body runs exactly once (the counter state stays at one application). -/
theorem memoize_key_identity {α β σ ε : Type} (cm : CacheManager) (S : Serializer α)
    (key : String) (func : β → σ → σ × Except ε α) (a b : β) (w : World) (s s1 : σ) (v : α)
    (hab : b ≠ a) (h0 : cm.has_in_cache w key = false)
    (h1 : func a s = (s1, Except.ok v)) :
    cm.memoize S key func a w s = (Except.ok v, cm.put_in_cache S w key v, s1) ∧
    cm.memoize S key func b (cm.put_in_cache S w key v) s1 =
      (Except.ok v, cm.put_in_cache S w key v, s1) := by
  constructor
  · simp [CacheManager.memoize, CacheManager.cachify, h0, h1]
  · simp [CacheManager.memoize, CacheManager.cachify, has_in_cache_put_self,
      retrieve_put_self]

/-- C2 witness: the wrapped function returns its own argument, yet the call
with argument 20 after a first call with argument 10 still returns 10, with
the body having run once. -/
theorem memoize_key_identity_witness :
    wcm.memoize natSerializer "k" argFunc 10 wEmpty 0 =
      (Except.ok 10, wcm.put_in_cache natSerializer wEmpty "k" 10, 1) ∧
    wcm.memoize natSerializer "k" argFunc 20 (wcm.put_in_cache natSerializer wEmpty "k" 10) 1 =
      (Except.ok 10, wcm.put_in_cache natSerializer wEmpty "k" 10, 1) :=
  memoize_key_identity wcm natSerializer "k" argFunc 10 20 wEmpty 0 1 10
    (by decide) rfl rfl

/-- C3: when no entry exists and the computation raises, `cachify` propagates
the error unchanged, the filesystem is left exactly as it was, and no entry
is written for the key (its existence bit is still false afterwards). -/
theorem cachify_error_propagation {α σ ε : Type} (cm : CacheManager) (S : Serializer α)
    (key : String) (func : σ → σ × Except ε α) (w : World) (s s1 : σ) (e : ε)
    (h0 : cm.has_in_cache w key = false) (h1 : func s = (s1, Except.error e)) :
    cm.cachify S key func w s = (Except.error (Sum.inr e), w, s1) ∧
    cm.has_in_cache (cm.cachify S key func w s).2.1 key = false := by
  have hc : cm.cachify S key func w s = (Except.error (Sum.inr e), w, s1) := by
    simp [CacheManager.cachify, h0, h1]
  refine ⟨hc, ?_⟩
  rw [hc]
  exact h0

/-- C3 witness: a raising computation over an empty cache propagates its
error and leaves the cache empty. -/
theorem cachify_error_propagation_witness :
    wcm.cachify natSerializer "k" failFunc wEmpty 0 =
      (Except.error (Sum.inr ()), wEmpty, 1) ∧
    wcm.has_in_cache (wcm.cachify natSerializer "k" failFunc wEmpty 0).2.1 "k" = false :=
  cachify_error_propagation wcm natSerializer "k" failFunc wEmpty 0 1 () rfl rfl

/-- C4: `put_in_cache` followed by `retrieve_from_cache` on the same key
returns the stored value, both over an arbitrary prior filesystem and, in
particular, over one where the key already held an earlier value (a later
store overwrites the earlier one). -/
theorem store_load_round_trip {α : Type} (cm : CacheManager) (S : Serializer α)
    (w : World) (k : String) (u v : α) :
    cm.retrieve_from_cache S (cm.put_in_cache S w k v) k = Except.ok v ∧
    cm.retrieve_from_cache S
      (cm.put_in_cache S (cm.put_in_cache S w k u) k v) k = Except.ok v :=
  ⟨retrieve_put_self cm S w k v,
   retrieve_put_self cm S (cm.put_in_cache S w k u) k v⟩

/-- C5: per-key binary state machine: in a filesystem with no files the key
is absent; after a store it is present, from any prior state; after a remove
of a present entry it is absent again. -/
theorem exists_state_machine {α : Type} (cm : CacheManager) (S : Serializer α)
    (dirs : List String) (w : World) (k : String) (v : α) :
    cm.has_in_cache ⟨dirs, []⟩ k = false ∧
    cm.has_in_cache (cm.put_in_cache S w k v) k = true ∧
    (cm.has_in_cache w k = true →
      ∃ w2, cm.clear_from_cache w k = Except.ok w2 ∧ cm.has_in_cache w2 k = false) := by
  refine ⟨?_, has_in_cache_put_self cm S w k v, ?_⟩
  · simp [CacheManager.has_in_cache, getFile]
  · intro h
    obtain ⟨bs, hg⟩ : ∃ bs, getFile w.files (cm.cachePath k) = some bs := by
      cases hg : getFile w.files (cm.cachePath k)
      · simp [CacheManager.has_in_cache, hg] at h
      · exact ⟨_, rfl⟩
    refine ⟨{ w with files := delFile w.files (cm.cachePath k) }, ?_, ?_⟩
    · simp [CacheManager.clear_from_cache, hg]
    · simp [CacheManager.has_in_cache, getFile_delFile_self]

/-- C5 witness: storing 5 under `k` in the empty cache makes the key present,
and removing it makes it absent again. -/
theorem exists_state_machine_witness :
    wcm.has_in_cache ⟨["cache"], []⟩ "k" = false ∧
    wcm.has_in_cache (wcm.put_in_cache natSerializer wEmpty "k" 5) "k" = true ∧
    (∃ w2, wcm.clear_from_cache (wcm.put_in_cache natSerializer wEmpty "k" 5) "k" =
        Except.ok w2 ∧ wcm.has_in_cache w2 "k" = false) := by
  have h1 := exists_state_machine wcm natSerializer ["cache"] wEmpty "k" (5 : Nat)
  have h2 := exists_state_machine wcm natSerializer ["cache"]
    (wcm.put_in_cache natSerializer wEmpty "k" 5) "k" (5 : Nat)
  exact ⟨h1.1, h1.2.1, h2.2.2 h1.2.1⟩

/-- C6: loading a key with no on-disk entry fails with `notFound`, and so
does removing it; neither is a silent no-op. -/
theorem missing_key_errors {α : Type} (cm : CacheManager) (S : Serializer α)
    (w : World) (k : String) (h : cm.has_in_cache w k = false) :
    cm.retrieve_from_cache S w k = Except.error CacheError.notFound ∧
    cm.clear_from_cache w k = Except.error CacheError.notFound := by
  have hg : getFile w.files (cm.cachePath k) = none := by
    cases hg : getFile w.files (cm.cachePath k)
    · rfl
    · simp [CacheManager.has_in_cache, hg] at h
  simp [CacheManager.retrieve_from_cache, CacheManager.clear_from_cache, hg]

/-- C6 witness: on the empty cache, both load and remove of `k` report
`notFound`. -/
theorem missing_key_errors_witness :
    wcm.retrieve_from_cache natSerializer wEmpty "k" =
      Except.error CacheError.notFound ∧
    wcm.clear_from_cache wEmpty "k" = Except.error CacheError.notFound :=
  missing_key_errors wcm natSerializer wEmpty "k" rfl

/-- C7: when the on-disk entry for a key holds bytes the serializer cannot
decode, loading the key fails with `corruption` rather than returning a
value. -/
theorem corrupt_entry_error {α : Type} (cm : CacheManager) (S : Serializer α)
    (w : World) (k : String) (bs : Bytes)
    (h1 : getFile w.files (cm.cachePath k) = some bs) (h2 : S.decode bs = none) :
    cm.retrieve_from_cache S w k = Except.error CacheError.corruption := by
  simp [CacheManager.retrieve_from_cache, h1, h2]

/-- C7 witness: an entry for `k` holding the two-byte payload `[7, 7]`, which
the serializer cannot decode, makes the load fail with `corruption`. -/
theorem corrupt_entry_error_witness :
    wcm.retrieve_from_cache natSerializer wCorrupt "k" =
      Except.error CacheError.corruption :=
  corrupt_entry_error wcm natSerializer wCorrupt "k" [7, 7]
    (by simp [wCorrupt, getFile]) rfl

/-- C8: constructing the manager fails (the caller obtains no manager) when
the path is not an existing directory, and succeeds, returning a manager
holding exactly that path, when it is; the construction reads the world and
returns only the manager, so it has no side effect beyond the validation. -/
theorem construct_validation (w : World) (p : String) :
    (w.dirs.contains p = false → CacheManager.construct w p = none) ∧
    (w.dirs.contains p = true → CacheManager.construct w p = some ⟨p⟩) := by
  refine ⟨fun h => ?_, fun h => ?_⟩
  · have hm : p ∉ w.dirs := by simpa using h
    simp [CacheManager.construct, hm]
  · have hm : p ∈ w.dirs := by simpa using h
    simp [CacheManager.construct, hm]

/-- C8 witness: over a world holding only the directory `cache`, construction
on `nope` fails and construction on `cache` succeeds. -/
theorem construct_validation_witness :
    CacheManager.construct ⟨["cache"], []⟩ "nope" = none ∧
    CacheManager.construct ⟨["cache"], []⟩ "cache" = some ⟨"cache"⟩ :=
  ⟨(construct_validation ⟨["cache"], []⟩ "nope").1 rfl,
   (construct_validation ⟨["cache"], []⟩ "cache").2 rfl⟩

/-- Helper: every hex digit produced by `hexChar` on a value below sixteen is
in the lower-case hexadecimal alphabet. -/
theorem hexChar_lt : ∀ m, m < 16 → hexChar m ∈ hexAlphabet := by decide

/-- Helper: `hexChar` of anything reduced mod sixteen is a hexadecimal digit. -/
theorem hexChar_mod_mem (n : Nat) : hexChar (n % 16) ∈ hexAlphabet :=
  hexChar_lt (n % 16) (Nat.mod_lt _ (by decide))

set_option maxRecDepth 100000 in
/-- C9: the digest function is the pure 64-character lower-case hexadecimal
SHA-256 digest: the documented value on the literal input `test`, length 64
and hexadecimal alphabet for every input string, and the on-disk location of
a key is the cache directory joined with the digest plus the fixed `.pickle`
suffix. -/
theorem digest_properties :
    str_to_hash "test" =
      "9f86d081884c7d659a2feaa0c55ad015a3bf4f1b2b0b822cd15d6c15b0f00a08" ∧
    (∀ k, (str_to_hash k).length = 64) ∧
    (∀ k, (str_to_hash k).data.all (fun c => hexAlphabet.contains c) = true) ∧
    (∀ cm : CacheManager, ∀ k, cm.cachePath k =
      joinPath cm.cache_folder_path (str_to_hash k ++ ".pickle")) := by
  refine ⟨by decide, fun k => rfl, fun k => ?_, fun cm k => rfl⟩
  simp [str_to_hash, wordHex, List.all, hexChar_mod_mem]

/-- C10: entries for keys with distinct digests are independent: a store
under one key changes neither the existence bit nor the loaded value of the
other, and a successful remove of one key likewise leaves the other key's
existence bit and loaded value unchanged. -/
theorem distinct_key_frame {α : Type} (cm : CacheManager) (S : Serializer α)
    (w : World) (k1 k2 : String) (v : α)
    (hne : str_to_hash k1 ≠ str_to_hash k2) :
    (cm.has_in_cache (cm.put_in_cache S w k1 v) k2 = cm.has_in_cache w k2) ∧
    (cm.retrieve_from_cache S (cm.put_in_cache S w k1 v) k2 =
      cm.retrieve_from_cache S w k2) ∧
    (∀ w2, cm.clear_from_cache w k1 = Except.ok w2 →
      cm.has_in_cache w2 k2 = cm.has_in_cache w k2 ∧
      cm.retrieve_from_cache S w2 k2 = cm.retrieve_from_cache S w k2) := by
  have hp : cm.cachePath k2 ≠ cm.cachePath k1 :=
    cachePath_inj cm k2 k1 (Ne.symm hne)
  refine ⟨?_, ?_, ?_⟩
  · simp [CacheManager.has_in_cache, CacheManager.put_in_cache,
      getFile_setFile_other _ _ _ _ hp]
  · simp [CacheManager.retrieve_from_cache, CacheManager.put_in_cache,
      getFile_setFile_other _ _ _ _ hp]
  · intro w2 hw2
    cases hg : getFile w.files (cm.cachePath k1) with
    | none => simp [CacheManager.clear_from_cache, hg] at hw2
    | some bs =>
      simp [CacheManager.clear_from_cache, hg] at hw2
      subst hw2
      constructor
      · simp [CacheManager.has_in_cache, getFile_delFile_other _ _ _ hp]
      · simp [CacheManager.retrieve_from_cache, getFile_delFile_other _ _ _ hp]

set_option maxRecDepth 100000 in
/-- C10 witness: the keys `a` and `b` have distinct digests, so storing under
`a` in the empty cache leaves the existence bit of `b` unchanged. -/
theorem distinct_key_frame_witness :
    wcm.has_in_cache (wcm.put_in_cache natSerializer wEmpty "a" 1) "b" =
      wcm.has_in_cache wEmpty "b" :=
  (distinct_key_frame wcm natSerializer wEmpty "a" "b" 1 (by decide)).1
